import Mathlib

/-!
Shallow embedding of the combat-engine store of `src/store/game.ts`
(the `useGame` zustand store of the war-dice repository).

Troop counts and die faces are JavaScript numbers used only at integer
values, so they are modelled as `Int`.  The random source `rollDice()`
(from `src/utils/math`, outside the store) is abstracted as an explicit
function `roll : Sides → Nat → Int` giving each side's i-th drawn die;
every theorem quantifies over it, so the results hold for every draw
that could be substituted for the random source.
-/

namespace WarDice

/-- The two participants (enum `Sides` of `src/utils/types`). -/
inductive Sides where
  | Attack : Sides
  | Defense : Sides
deriving DecidableEq, Repr

/-- The coarse lifecycle phase (enum `GameState` of `src/utils/types`). -/
inductive GameState where
  | Waiting : GameState
  | Rolling : GameState
  | Finished : GameState
deriving DecidableEq, Repr

/-- A `Record<Sides, α>` of the TypeScript source. -/
structure SideMap (α : Type) where
  attack : α
  defense : α
deriving DecidableEq, Repr

/-- Read a side's entry of a `Record<Sides, α>`. -/
def SideMap.get (m : SideMap α) : Sides → α
  | Sides.Attack => m.attack
  | Sides.Defense => m.defense

/-- Write a side's entry of a `Record<Sides, α>` (the spread-update
`{ ...state.troops, [side]: v }`). -/
def SideMap.set (m : SideMap α) : Sides → α → SideMap α
  | Sides.Attack, v => { m with attack := v }
  | Sides.Defense, v => { m with defense := v }

/-- One resolved dice exchange (type `RollDice` of `src/store/game.ts`). -/
structure RollDice where
  dices : SideMap (List Int)
  rounds : List Sides
  winner : Sides
  troopsLost : SideMap Int
deriving DecidableEq, Repr

/-- The store's data fields (type `GameData` of `src/store/game.ts`,
state fields only; the methods are the functions below). -/
structure GameData where
  state : GameState
  initialTroops : SideMap Int
  troops : SideMap Int
  rolls : List RollDice
  winner : Option Sides
deriving DecidableEq, Repr

/-- Constant `MAX_DICE_ROUNDS = 3`. -/
def MAX_DICE_ROUNDS : Int := 3

/-- Function `initialState()`: Waiting, initialTroops 0/0, troops 4/4, no rolls,
no winner. -/
def initialState : GameData where
  state := GameState.Waiting
  initialTroops := ⟨0, 0⟩
  troops := ⟨4, 4⟩
  rolls := []
  winner := none

/-- Method `reset()`: replaces the whole store by `initialState()`. -/
def reset (_g : GameData) : GameData := initialState

/-- The `value` argument of `setTroops`: `number | ((current: number) => number)`. -/
def TroopsValue : Type := Int ⊕ (Int → Int)

/-- Evaluate the `value` argument against the current count
(`typeof value === 'function' ? value(state.troops[side]) : value`). -/
def TroopsValue.eval (v : TroopsValue) (current : Int) : Int :=
  match v with
  | Sum.inl n => n
  | Sum.inr f => f current

/-- Method `setTroops(side, value)`: stores `Math.max(0, computed value)` for
`side`, leaving everything else unchanged. -/
def setTroops (side : Sides) (value : TroopsValue) (g : GameData) : GameData :=
  { g with troops := g.troops.set side (max 0 (value.eval (g.troops.get side))) }

/-- Method `getLastRoll()`: the last element of `rolls`, if any. -/
def getLastRoll (g : GameData) : Option RollDice :=
  g.rolls.getLast?

/-- Method `nextDiceCount(side, troops)`: the fixed per-side lookup from troop
count to number of dice rolled. -/
def nextDiceCount (side : Sides) (troops : Int) : Nat :=
  match side with
  | Sides.Attack =>
    if troops ≥ 4 then 3
    else if troops = 3 then 2
    else if troops = 2 then 1
    else 0
  | Sides.Defense =>
    if troops ≥ 3 then 3
    else if troops = 2 then 2
    else if troops = 1 then 1
    else 0

/-- Method `nextRoundCount()`: `Math.max(0, Math.min(MAX_DICE_ROUNDS,
troops[Defense], troops[Attack] - 1))`. -/
def nextRoundCount (troops : SideMap Int) : Int :=
  max 0 (min MAX_DICE_ROUNDS (min troops.defense (troops.attack - 1)))

/-- Insert one value into a descending-sorted list. -/
def insertDesc (x : Int) : List Int → List Int
  | [] => [x]
  | y :: ys => if x ≥ y then x :: y :: ys else y :: insertDesc x ys

/-- The sort `dices[side].sort((a, b) => b - a)`: sort a dice list so the highest
value comes first. -/
def sortDesc : List Int → List Int
  | [] => []
  | x :: xs => insertDesc x (sortDesc xs)

/-- The dice drawn for one side in `rollDices`: `nextDiceCount` values
taken from the draw source, sorted descending. -/
def drawnDices (roll : Sides → Nat → Int) (side : Sides) (troops : Int) : List Int :=
  sortDesc ((List.range (nextDiceCount side troops)).map (roll side))

/-- The per-pair comparison loop of `rollDices`: for each `i` below the
round count, the attacker's i-th (sorted) die must be strictly greater
than the defender's to win the pair, otherwise the Defender wins it. -/
def roundsOf (dices : SideMap (List Int)) (roundCount : Nat) : List Sides :=
  (List.range roundCount).map (fun i =>
    if dices.attack.getD i 0 > dices.defense.getD i 0 then Sides.Attack
    else Sides.Defense)

/-- The `RollDice` record one call of `rollDices` builds from the current
troop counts and the drawn dice: the sorted dice, per-pair winners,
exchange winner (`wins[Attack] > wins[Defense] ? Attack : Defense`) and
`troopsLost[side] = roundCount - wins[side]`. -/
def exchangeRoll (roll : Sides → Nat → Int) (troops : SideMap Int) : RollDice :=
  let roundCount : Nat := (nextRoundCount troops).toNat
  let dices : SideMap (List Int) :=
    ⟨drawnDices roll Sides.Attack troops.attack,
     drawnDices roll Sides.Defense troops.defense⟩
  let rounds : List Sides := roundsOf dices roundCount
  let wins : SideMap Int :=
    ⟨rounds.count Sides.Attack, rounds.count Sides.Defense⟩
  let winner : Sides :=
    if wins.attack > wins.defense then Sides.Attack else Sides.Defense
  let troopsLost : SideMap Int :=
    ⟨(roundCount : Int) - wins.attack, (roundCount : Int) - wins.defense⟩
  ⟨dices, rounds, winner, troopsLost⟩

/-- Method `rollDices()`: resolves one exchange.  `roll side i` stands for the
value the external `rollDice()` returns for `side`'s i-th draw. -/
def rollDices (roll : Sides → Nat → Int) (g : GameData) : GameData :=
  let r : RollDice := exchangeRoll roll g.troops
  let updatedTroops : SideMap Int :=
    ⟨g.troops.attack - r.troopsLost.attack, g.troops.defense - r.troopsLost.defense⟩
  let g1 : GameData :=
    { g with rolls := g.rolls ++ [r], troops := updatedTroops }
  if updatedTroops.defense = 0 then
    { g1 with state := GameState.Finished, winner := some Sides.Attack }
  else if updatedTroops.attack ≤ 1 then
    { g1 with state := GameState.Finished, winner := some Sides.Defense }
  else g1

/-- Method `play()`: reset when Finished; otherwise start rolling (snapshotting
troops) when Waiting, and resolve one exchange. -/
def play (roll : Sides → Nat → Int) (g : GameData) : GameData :=
  if g.state = GameState.Finished then reset g
  else
    let g' : GameData :=
      if g.state = GameState.Waiting then
        { g with
          state := GameState.Rolling,
          initialTroops := g.troops,
          rolls := [],
          winner := none }
      else g
    rollDices roll g'

/-! ### Basic lemmas about the embedding -/

theorem insertDesc_length (x : Int) (l : List Int) :
    (insertDesc x l).length = l.length + 1 := by
  induction l with
  | nil => rfl
  | cons y ys ih =>
    simp only [insertDesc]
    split
    · simp
    · simp [ih]

theorem sortDesc_length (l : List Int) : (sortDesc l).length = l.length := by
  induction l with
  | nil => rfl
  | cons x xs ih => simp [sortDesc, insertDesc_length, ih]

theorem drawnDices_length (roll : Sides → Nat → Int) (side : Sides) (t : Int) :
    (drawnDices roll side t).length = nextDiceCount side t := by
  simp [drawnDices, sortDesc_length]

theorem roundsOf_length (dices : SideMap (List Int)) (rc : Nat) :
    (roundsOf dices rc).length = rc := by
  simp [roundsOf]

theorem count_attack_add_count_defense (l : List Sides) :
    l.count Sides.Attack + l.count Sides.Defense = l.length := by
  induction l with
  | nil => rfl
  | cons s l ih => cases s <;> simp [List.count_cons, ih] <;> omega

theorem exchangeRoll_rounds (roll : Sides → Nat → Int) (t : SideMap Int) :
    (exchangeRoll roll t).rounds =
      roundsOf (exchangeRoll roll t).dices (nextRoundCount t).toNat := rfl

theorem exchangeRoll_dices_attack (roll : Sides → Nat → Int) (t : SideMap Int) :
    (exchangeRoll roll t).dices.attack = drawnDices roll Sides.Attack t.attack := rfl

theorem exchangeRoll_dices_defense (roll : Sides → Nat → Int) (t : SideMap Int) :
    (exchangeRoll roll t).dices.defense = drawnDices roll Sides.Defense t.defense := rfl

theorem exchangeRoll_troopsLost_attack (roll : Sides → Nat → Int) (t : SideMap Int) :
    (exchangeRoll roll t).troopsLost.attack =
      ((nextRoundCount t).toNat : Int)
        - ((exchangeRoll roll t).rounds.count Sides.Attack : Int) := rfl

theorem exchangeRoll_troopsLost_defense (roll : Sides → Nat → Int) (t : SideMap Int) :
    (exchangeRoll roll t).troopsLost.defense =
      ((nextRoundCount t).toNat : Int)
        - ((exchangeRoll roll t).rounds.count Sides.Defense : Int) := rfl

theorem exchangeRoll_winner (roll : Sides → Nat → Int) (t : SideMap Int) :
    (exchangeRoll roll t).winner =
      (if ((exchangeRoll roll t).rounds.count Sides.Attack : Int) >
          ((exchangeRoll roll t).rounds.count Sides.Defense : Int)
       then Sides.Attack else Sides.Defense) := rfl

theorem exchangeRoll_rounds_length (roll : Sides → Nat → Int) (t : SideMap Int) :
    (exchangeRoll roll t).rounds.length = (nextRoundCount t).toNat := by
  rw [exchangeRoll_rounds, roundsOf_length]

theorem exchangeRoll_troopsLost_bounds (roll : Sides → Nat → Int) (t : SideMap Int) :
    (0 ≤ (exchangeRoll roll t).troopsLost.attack ∧
      (exchangeRoll roll t).troopsLost.attack ≤ ((nextRoundCount t).toNat : Int)) ∧
    (0 ≤ (exchangeRoll roll t).troopsLost.defense ∧
      (exchangeRoll roll t).troopsLost.defense ≤ ((nextRoundCount t).toNat : Int)) := by
  have hA := List.count_le_length Sides.Attack (exchangeRoll roll t).rounds
  have hD := List.count_le_length Sides.Defense (exchangeRoll roll t).rounds
  rw [exchangeRoll_rounds_length] at hA hD
  rw [exchangeRoll_troopsLost_attack, exchangeRoll_troopsLost_defense]
  omega

theorem toNat_nextRoundCount_le_defense (t : SideMap Int) (h : 0 ≤ t.defense) :
    ((nextRoundCount t).toNat : Int) ≤ t.defense := by
  simp only [nextRoundCount, MAX_DICE_ROUNDS]
  omega

theorem attack_sub_roundCount_nonneg (t : SideMap Int) (h : 0 ≤ t.attack) :
    0 ≤ t.attack - ((nextRoundCount t).toNat : Int) := by
  simp only [nextRoundCount, MAX_DICE_ROUNDS]
  omega

theorem rollDices_troops (roll : Sides → Nat → Int) (g : GameData) :
    (rollDices roll g).troops =
      ⟨g.troops.attack - (exchangeRoll roll g.troops).troopsLost.attack,
       g.troops.defense - (exchangeRoll roll g.troops).troopsLost.defense⟩ := by
  simp only [rollDices]
  split
  · rfl
  · split <;> rfl

theorem rollDices_rolls (roll : Sides → Nat → Int) (g : GameData) :
    (rollDices roll g).rolls = g.rolls ++ [exchangeRoll roll g.troops] := by
  simp only [rollDices]
  split
  · rfl
  · split <;> rfl

theorem rollDices_state_or (roll : Sides → Nat → Int) (g : GameData) :
    (rollDices roll g).state = GameState.Finished ∨
      (rollDices roll g).state = g.state := by
  simp only [rollDices]
  split
  · exact Or.inl rfl
  · split
    · exact Or.inl rfl
    · exact Or.inr rfl

theorem rollDices_branches (roll : Sides → Nat → Int) (g : GameData) :
    ((rollDices roll g).troops.defense = 0 →
      (rollDices roll g).state = GameState.Finished ∧
        (rollDices roll g).winner = some Sides.Attack) ∧
    ((rollDices roll g).troops.defense ≠ 0 → (rollDices roll g).troops.attack ≤ 1 →
      (rollDices roll g).state = GameState.Finished ∧
        (rollDices roll g).winner = some Sides.Defense) ∧
    ((rollDices roll g).troops.defense ≠ 0 → ¬ (rollDices roll g).troops.attack ≤ 1 →
      (rollDices roll g).state = g.state ∧ (rollDices roll g).winner = g.winner) := by
  simp only [rollDices]
  split
  case isTrue h =>
    exact ⟨fun _ => ⟨rfl, rfl⟩, fun hne _ => absurd h hne, fun hne _ => absurd h hne⟩
  case isFalse h1 =>
    split
    case isTrue h2 =>
      exact ⟨fun h0 => absurd h0 h1, fun _ _ => ⟨rfl, rfl⟩, fun _ hna => absurd h2 hna⟩
    case isFalse h2 =>
      exact ⟨fun h0 => absurd h0 h1, fun _ ha => absurd ha h2, fun _ _ => ⟨rfl, rfl⟩⟩

theorem rollDices_troops_nonneg_monotone (roll : Sides → Nat → Int) (g : GameData)
    (hA : 0 ≤ g.troops.attack) (hD : 0 ≤ g.troops.defense) :
    (0 ≤ (rollDices roll g).troops.attack ∧
      (rollDices roll g).troops.attack ≤ g.troops.attack) ∧
    (0 ≤ (rollDices roll g).troops.defense ∧
      (rollDices roll g).troops.defense ≤ g.troops.defense) := by
  have hb := exchangeRoll_troopsLost_bounds roll g.troops
  have h1 := toNat_nextRoundCount_le_defense g.troops hD
  have h2 := attack_sub_roundCount_nonneg g.troops hA
  rw [rollDices_troops]
  dsimp only
  omega

theorem rollDices_rolls_ne_nil (roll : Sides → Nat → Int) (g : GameData) :
    (rollDices roll g).rolls ≠ [] := by
  rw [rollDices_rolls]
  simp

theorem rollDices_state_ne_waiting (roll : Sides → Nat → Int) (g : GameData)
    (h : g.state ≠ GameState.Waiting) :
    (rollDices roll g).state ≠ GameState.Waiting := by
  rcases rollDices_state_or roll g with h1 | h1 <;> rw [h1]
  · simp
  · exact h

/-- The history/phase invariant of §3 of the spec: the roll history is
empty exactly in the Waiting phase. -/
def histInv (g : GameData) : Prop := g.rolls = [] ↔ g.state = GameState.Waiting

theorem histInv_initialState : histInv initialState := by
  simp [histInv, initialState]

theorem histInv_play (roll : Sides → Nat → Int) (g : GameData) :
    histInv (play roll g) := by
  unfold histInv play
  split
  case isTrue hf => simp [reset, initialState]
  case isFalse hf =>
    split
    case isTrue hw =>
      exact iff_of_false (rollDices_rolls_ne_nil roll _)
        (rollDices_state_ne_waiting roll _ (by simp))
    case isFalse hw =>
      exact iff_of_false (rollDices_rolls_ne_nil roll _)
        (rollDices_state_ne_waiting roll _ hw)

theorem histInv_setTroops (side : Sides) (value : TroopsValue) (g : GameData)
    (h : histInv g) : histInv (setTroops side value g) := h

theorem histInv_reset (g : GameData) : histInv (reset g) := histInv_initialState

/-- One externally invocable mutation of the store: `setTroops`, `play`
(with the dice the random source would produce) or `reset`. -/
inductive Op where
  | setTroops : Sides → TroopsValue → Op
  | play : (Sides → Nat → Int) → Op
  | reset : Op

/-- Apply one mutation to the store state. -/
def Op.apply : Op → GameData → GameData
  | Op.setTroops side value, g => WarDice.setTroops side value g
  | Op.play roll, g => WarDice.play roll g
  | Op.reset, g => WarDice.reset g

/-- Run a sequence of mutations starting from the store's initial state. -/
def runOps (ops : List Op) : GameData :=
  ops.foldl (fun g op => op.apply g) initialState

theorem histInv_op (op : Op) (g : GameData) (h : histInv g) : histInv (op.apply g) := by
  cases op with
  | setTroops side value => exact histInv_setTroops side value g h
  | play roll => exact histInv_play roll g
  | reset => exact histInv_reset g

theorem histInv_foldl (ops : List Op) :
    ∀ g : GameData, histInv g → histInv (ops.foldl (fun g op => op.apply g) g) := by
  induction ops with
  | nil => exact fun g h => h
  | cons op ops ih => exact fun g h => ih (op.apply g) (histInv_op op g h)

theorem setTroops_troops_nonneg (side : Sides) (value : TroopsValue) (g : GameData)
    (hA : 0 ≤ g.troops.attack) (hD : 0 ≤ g.troops.defense) :
    0 ≤ (setTroops side value g).troops.attack ∧
      0 ≤ (setTroops side value g).troops.defense := by
  cases side <;> refine ⟨?_, ?_⟩ <;> simp [setTroops, SideMap.set, SideMap.get] <;> omega

theorem play_troops_nonneg_monotone (roll : Sides → Nat → Int) (g : GameData)
    (hA : 0 ≤ g.troops.attack) (hD : 0 ≤ g.troops.defense) :
    (0 ≤ (play roll g).troops.attack ∧ 0 ≤ (play roll g).troops.defense) ∧
    (g.state ≠ GameState.Finished →
      (play roll g).troops.attack ≤ g.troops.attack ∧
      (play roll g).troops.defense ≤ g.troops.defense) := by
  unfold play
  split
  case isTrue hf =>
    exact ⟨⟨by simp [reset, initialState], by simp [reset, initialState]⟩,
      fun hne => absurd hf hne⟩
  case isFalse hf =>
    split
    case isTrue hw =>
      have h := rollDices_troops_nonneg_monotone roll
        { g with
          state := GameState.Rolling, initialTroops := g.troops,
          rolls := [], winner := none } hA hD
      exact ⟨⟨h.1.1, h.2.1⟩, fun _ => ⟨h.1.2, h.2.2⟩⟩
    case isFalse hw =>
      have h := rollDices_troops_nonneg_monotone roll g hA hD
      exact ⟨⟨h.1.1, h.2.1⟩, fun _ => ⟨h.1.2, h.2.2⟩⟩

theorem roundCount_le_diceCount (t : SideMap Int) :
    (nextRoundCount t).toNat ≤ nextDiceCount Sides.Attack t.attack ∧
    (nextRoundCount t).toNat ≤ nextDiceCount Sides.Defense t.defense := by
  have ha : nextDiceCount Sides.Attack t.attack =
      if t.attack ≥ 4 then 3 else if t.attack = 3 then 2
      else if t.attack = 2 then 1 else 0 := rfl
  have hd : nextDiceCount Sides.Defense t.defense =
      if t.defense ≥ 3 then 3 else if t.defense = 2 then 2
      else if t.defense = 1 then 1 else 0 := rfl
  rw [ha, hd]
  simp only [nextRoundCount, MAX_DICE_ROUNDS]
  constructor <;> split_ifs <;> omega

theorem SideMap.eq_mk {α : Type} (m : SideMap α) (a b : α)
    (h1 : m.attack = a) (h2 : m.defense = b) : m = ⟨a, b⟩ := by
  cases m
  cases h1
  cases h2
  rfl

/-! ### Concrete inputs used by scenario theorems and witnesses -/

/-- A draw source producing the same face on every die. -/
def constRoll (v : Int) : Sides → Nat → Int := fun _ _ => v

/-- The draw of the spec's scenario: Attacker draws 6, 5, 4 and the
Defender draws 6, 3, 1. -/
def scenarioRoll : Sides → Nat → Int
  | Sides.Attack, 0 => 6
  | Sides.Attack, 1 => 5
  | Sides.Attack, 2 => 4
  | Sides.Defense, 0 => 6
  | Sides.Defense, 1 => 3
  | Sides.Defense, 2 => 1
  | _, _ => 0

/-- A Rolling-phase state with 4 troops on each side. -/
def rolling44 : GameData where
  state := GameState.Rolling
  initialTroops := ⟨4, 4⟩
  troops := ⟨4, 4⟩
  rolls := []
  winner := none

/-- A Finished-phase state (the Defender was depleted). -/
def finishedGame : GameData where
  state := GameState.Finished
  initialTroops := ⟨4, 4⟩
  troops := ⟨3, 0⟩
  rolls := []
  winner := some Sides.Attack

/-- A Rolling-phase state where the Attacker has a single troop, so the
round count is 0. -/
def rolling15 : GameData where
  state := GameState.Rolling
  initialTroops := ⟨1, 5⟩
  troops := ⟨1, 5⟩
  rolls := []
  winner := none

/-! ### The claims -/

/-- C1: starting from phase Rolling with troops Attacker = 4 and
Defender = 4, with the draw Attacker = [6,5,4] and Defender = [6,3,1]
substituted for the random source, the exchange resolution records
perDieOutcome = [Defender, Attacker, Attacker] (pair 0 ties 6 vs 6 and
goes to the Defender), roundWinner = Attacker, troopsLost
= {Attacker 1, Defender 2}, leaves troops Attacker = 3 and Defender = 2
and keeps the phase Rolling. -/
theorem scenario_exchange_4v4 :
    rollDices scenarioRoll rolling44 =
      { state := GameState.Rolling
        initialTroops := ⟨4, 4⟩
        troops := ⟨3, 2⟩
        rolls := [⟨⟨[6, 5, 4], [6, 3, 1]⟩,
                  [Sides.Defense, Sides.Attack, Sides.Attack],
                  Sides.Attack, ⟨1, 2⟩⟩]
        winner := none } := by decide

/-- C2: from any state with non-negative troop counts, `setTroops`,
`play` (advance) and `reset` all yield non-negative troop counts, and
when the phase is not Finished (so `play` resolves an exchange rather
than resetting) `play` never increases either side's troop count. -/
theorem troops_nonneg_and_monotone
    (g : GameData) (roll : Sides → Nat → Int) (side : Sides) (value : TroopsValue)
    (hA : 0 ≤ g.troops.attack) (hD : 0 ≤ g.troops.defense) :
    (0 ≤ (setTroops side value g).troops.attack ∧
      0 ≤ (setTroops side value g).troops.defense) ∧
    (0 ≤ (play roll g).troops.attack ∧ 0 ≤ (play roll g).troops.defense) ∧
    (0 ≤ (reset g).troops.attack ∧ 0 ≤ (reset g).troops.defense) ∧
    (g.state ≠ GameState.Finished →
      (play roll g).troops.attack ≤ g.troops.attack ∧
      (play roll g).troops.defense ≤ g.troops.defense) := by
  have hp := play_troops_nonneg_monotone roll g hA hD
  exact ⟨setTroops_troops_nonneg side value g hA hD, hp.1,
    ⟨by simp [reset, initialState], by simp [reset, initialState]⟩, hp.2⟩

/-- Witness for C2 at the initial state, a negative `setTroops` value
and an all-ones draw. -/
theorem troops_nonneg_and_monotone_witness :
    (0 ≤ initialState.troops.attack ∧ 0 ≤ initialState.troops.defense) ∧
    (0 ≤ (setTroops Sides.Attack (Sum.inl (-5) : TroopsValue) initialState).troops.attack ∧
      0 ≤ (setTroops Sides.Attack (Sum.inl (-5) : TroopsValue) initialState).troops.defense) ∧
    (0 ≤ (play (constRoll 1) initialState).troops.attack ∧
      0 ≤ (play (constRoll 1) initialState).troops.defense) ∧
    (0 ≤ (reset initialState).troops.attack ∧ 0 ≤ (reset initialState).troops.defense) ∧
    (initialState.state ≠ GameState.Finished →
      (play (constRoll 1) initialState).troops.attack ≤ initialState.troops.attack ∧
      (play (constRoll 1) initialState).troops.defense ≤ initialState.troops.defense) :=
  ⟨⟨by decide, by decide⟩,
    troops_nonneg_and_monotone initialState (constRoll 1) Sides.Attack
      (Sum.inl (-5) : TroopsValue) (by decide) (by decide)⟩

/-- C4: from any Finished state, `play` (advance) performs a full reset
and nothing else: the result equals both `reset` of the state and the
default initial Waiting state with troops 4/4, empty history and no
winner. -/
theorem finished_play_resets (g : GameData) (roll : Sides → Nat → Int)
    (h : g.state = GameState.Finished) :
    play roll g = reset g ∧ play roll g = initialState ∧
    initialState.state = GameState.Waiting ∧
    initialState.troops = (⟨4, 4⟩ : SideMap Int) ∧
    initialState.rolls = [] ∧ initialState.winner = none := by
  unfold play
  rw [if_pos h]
  exact ⟨rfl, rfl, rfl, rfl, rfl, rfl⟩

/-- Witness for C4 at a concrete Finished state. -/
theorem finished_play_resets_witness :
    finishedGame.state = GameState.Finished ∧
    (play (constRoll 1) finishedGame = reset finishedGame ∧
      play (constRoll 1) finishedGame = initialState ∧
      initialState.state = GameState.Waiting ∧
      initialState.troops = (⟨4, 4⟩ : SideMap Int) ∧
      initialState.rolls = [] ∧ initialState.winner = none) :=
  ⟨by decide, finished_play_resets finishedGame (constRoll 1) (by decide)⟩

/-- C5: every exchange appends a roll whose number of compared die
pairs is `max 0 (min 3 (min troops[Defense] (troops[Attack] - 1)))`;
in particular troops 4/4 give round count 3 and troops
Attacker 1 / Defender 5 give round count 0. -/
theorem roundCount_formula (roll : Sides → Nat → Int) (g : GameData) :
    (∃ r, getLastRoll (rollDices roll g) = some r ∧
      (r.rounds.length : Int) =
        max 0 (min 3 (min g.troops.defense (g.troops.attack - 1)))) ∧
    nextRoundCount ⟨4, 4⟩ = 3 ∧ nextRoundCount ⟨1, 5⟩ = 0 := by
  refine ⟨⟨exchangeRoll roll g.troops, ?_, ?_⟩, by decide, by decide⟩
  · unfold getLastRoll
    rw [rollDices_rolls]
    exact List.getLast?_concat _
  · rw [exchangeRoll_rounds_length]
    simp only [nextRoundCount, MAX_DICE_ROUNDS]
    omega

/-- C6: `setTroops(side, value)` stores exactly `max 0 v` for the side,
where `v` is the given integer or the given function applied to the
current count; negative results are clamped to 0, never rejected. -/
theorem setTroops_sets_clamped (side : Sides) (value : TroopsValue) (g : GameData) :
    (setTroops side value g).troops.get side
      = max 0 (value.eval (g.troops.get side)) ∧
    0 ≤ (setTroops side value g).troops.get side := by
  cases side <;> exact ⟨rfl, le_max_left 0 _⟩

/-- C3: after an exchange from a Rolling state with non-negative troop
counts, the termination checks run in order — Defender depleted first
(winner Attacker), then Attacker down to at most one (winner Defender),
else the phase stays Rolling — so every Finished result has either
`troops[Defense] = 0` with winner Attacker, or `troops[Defense] > 0`
and `troops[Attack] ≤ 1` with winner Defender. -/
theorem finished_termination_order
    (g : GameData) (roll : Sides → Nat → Int)
    (hA : 0 ≤ g.troops.attack) (hD : 0 ≤ g.troops.defense)
    (hs : g.state = GameState.Rolling) :
    ((rollDices roll g).troops.defense = 0 →
      (rollDices roll g).state = GameState.Finished ∧
      (rollDices roll g).winner = some Sides.Attack) ∧
    ((rollDices roll g).troops.defense ≠ 0 → (rollDices roll g).troops.attack ≤ 1 →
      (rollDices roll g).state = GameState.Finished ∧
      (rollDices roll g).winner = some Sides.Defense) ∧
    ((rollDices roll g).troops.defense ≠ 0 → ¬ (rollDices roll g).troops.attack ≤ 1 →
      (rollDices roll g).state = GameState.Rolling) ∧
    ((rollDices roll g).state = GameState.Finished →
      ((rollDices roll g).troops.defense = 0 ∧
        (rollDices roll g).winner = some Sides.Attack) ∨
      (0 < (rollDices roll g).troops.defense ∧ (rollDices roll g).troops.attack ≤ 1 ∧
        (rollDices roll g).winner = some Sides.Defense)) := by
  obtain ⟨b1, b2, b3⟩ := rollDices_branches roll g
  have hnn := rollDices_troops_nonneg_monotone roll g hA hD
  refine ⟨b1, b2, fun hne hna => ?_, fun hfin => ?_⟩
  · rw [(b3 hne hna).1, hs]
  · by_cases h0 : (rollDices roll g).troops.defense = 0
    · exact Or.inl ⟨h0, (b1 h0).2⟩
    · by_cases h1 : (rollDices roll g).troops.attack ≤ 1
      · exact Or.inr ⟨lt_of_le_of_ne hnn.2.1 (Ne.symm h0), h1, (b2 h0 h1).2⟩
      · have hst := (b3 h0 h1).1
        rw [hs] at hst
        rw [hst] at hfin
        exact GameState.noConfusion hfin

/-- Witness for C3 at the 4-vs-4 Rolling state and the scenario draw. -/
theorem finished_termination_order_witness :
    (0 ≤ rolling44.troops.attack ∧ 0 ≤ rolling44.troops.defense ∧
      rolling44.state = GameState.Rolling) ∧
    ((rollDices scenarioRoll rolling44).troops.defense = 0 →
      (rollDices scenarioRoll rolling44).state = GameState.Finished ∧
      (rollDices scenarioRoll rolling44).winner = some Sides.Attack) ∧
    ((rollDices scenarioRoll rolling44).troops.defense ≠ 0 →
      (rollDices scenarioRoll rolling44).troops.attack ≤ 1 →
      (rollDices scenarioRoll rolling44).state = GameState.Finished ∧
      (rollDices scenarioRoll rolling44).winner = some Sides.Defense) ∧
    ((rollDices scenarioRoll rolling44).troops.defense ≠ 0 →
      ¬ (rollDices scenarioRoll rolling44).troops.attack ≤ 1 →
      (rollDices scenarioRoll rolling44).state = GameState.Rolling) ∧
    ((rollDices scenarioRoll rolling44).state = GameState.Finished →
      ((rollDices scenarioRoll rolling44).troops.defense = 0 ∧
        (rollDices scenarioRoll rolling44).winner = some Sides.Attack) ∨
      (0 < (rollDices scenarioRoll rolling44).troops.defense ∧
        (rollDices scenarioRoll rolling44).troops.attack ≤ 1 ∧
        (rollDices scenarioRoll rolling44).winner = some Sides.Defense)) :=
  ⟨⟨by decide, by decide, by decide⟩,
    finished_termination_order rolling44 scenarioRoll (by decide) (by decide) (by decide)⟩

theorem setTroops_foldl_waiting_nonneg (ops : List (Sides × TroopsValue)) :
    ∀ g : GameData, g.state = GameState.Waiting →
      0 ≤ g.troops.attack → 0 ≤ g.troops.defense →
      (ops.foldl (fun g p => setTroops p.1 p.2 g) g).state = GameState.Waiting ∧
      0 ≤ (ops.foldl (fun g p => setTroops p.1 p.2 g) g).troops.attack ∧
      0 ≤ (ops.foldl (fun g p => setTroops p.1 p.2 g) g).troops.defense := by
  induction ops with
  | nil => exact fun g hs hA hD => ⟨hs, hA, hD⟩
  | cons p ops ih =>
    intro g hs hA hD
    have h := setTroops_troops_nonneg p.1 p.2 g hA hD
    exact ih (setTroops p.1 p.2 g) hs h.1 h.2

/-- C7 counterexample: `setTroops(Attack, 0)` on the initial state
yields a Waiting state whose Attacker troop count is 0, below the
claimed minimum of 1. -/
theorem waiting_min_one_counterexample :
    (setTroops Sides.Attack (Sum.inl 0 : TroopsValue) initialState).state
        = GameState.Waiting ∧
    ¬ (1 ≤ (setTroops Sides.Attack (Sum.inl 0 : TroopsValue) initialState).troops.attack) := by
  decide

/-- C7 (amended): every Waiting state reachable from the initial state
by configuring troop counts via `setTroops` keeps the phase Waiting and
has troop counts of at least 0 on each side (the clamp floor is 0, not
1; the default is 4/4). -/
theorem waiting_reachable_troops_clamped (ops : List (Sides × TroopsValue)) :
    (ops.foldl (fun g p => setTroops p.1 p.2 g) initialState).state
        = GameState.Waiting ∧
    0 ≤ (ops.foldl (fun g p => setTroops p.1 p.2 g) initialState).troops.attack ∧
    0 ≤ (ops.foldl (fun g p => setTroops p.1 p.2 g) initialState).troops.defense :=
  setTroops_foldl_waiting_nonneg ops initialState rfl (by decide) (by decide)

/-- C8: in every state reachable from the initial state by any sequence
of `setTroops`, `play` (advance, under any draws) and `reset`, the roll
history is empty exactly when the phase is Waiting. -/
theorem history_empty_iff_waiting (ops : List Op) :
    (runOps ops).rolls = [] ↔ (runOps ops).state = GameState.Waiting :=
  histInv_foldl ops initialState histInv_initialState

/-- C9: an exchange with round count 0 records no pair outcomes, both
pair-win counts are 0, the recorded round winner defaults to the
Defender, both sides lose 0 troops, and the empty-pair roll is still
appended to the history. -/
theorem zero_round_exchange (g : GameData) (roll : Sides → Nat → Int)
    (h : nextRoundCount g.troops = 0) :
    (rollDices roll g).rolls = g.rolls ++ [exchangeRoll roll g.troops] ∧
    getLastRoll (rollDices roll g) = some (exchangeRoll roll g.troops) ∧
    (exchangeRoll roll g.troops).rounds = [] ∧
    (exchangeRoll roll g.troops).rounds.count Sides.Attack = 0 ∧
    (exchangeRoll roll g.troops).rounds.count Sides.Defense = 0 ∧
    (exchangeRoll roll g.troops).winner = Sides.Defense ∧
    (exchangeRoll roll g.troops).troopsLost = (⟨0, 0⟩ : SideMap Int) := by
  have hr : (exchangeRoll roll g.troops).rounds = [] := by
    rw [exchangeRoll_rounds, h]
    rfl
  have hcA : (exchangeRoll roll g.troops).rounds.count Sides.Attack = 0 := by
    rw [hr]
    rfl
  have hcD : (exchangeRoll roll g.troops).rounds.count Sides.Defense = 0 := by
    rw [hr]
    rfl
  refine ⟨rollDices_rolls roll g, ?_, hr, hcA, hcD, ?_, ?_⟩
  · unfold getLastRoll
    rw [rollDices_rolls]
    exact List.getLast?_concat _
  · rw [exchangeRoll_winner, hcA, hcD]
    simp
  · refine SideMap.eq_mk _ 0 0 ?_ ?_
    · rw [exchangeRoll_troopsLost_attack, hcA, h]
      simp
    · rw [exchangeRoll_troopsLost_defense, hcD, h]
      simp

/-- Witness for C9 at the 1-vs-5 Rolling state, where the round count
is 0, with an all-twos draw. -/
theorem zero_round_exchange_witness :
    nextRoundCount rolling15.troops = 0 ∧
    ((rollDices (constRoll 2) rolling15).rolls
        = rolling15.rolls ++ [exchangeRoll (constRoll 2) rolling15.troops] ∧
      getLastRoll (rollDices (constRoll 2) rolling15)
        = some (exchangeRoll (constRoll 2) rolling15.troops) ∧
      (exchangeRoll (constRoll 2) rolling15.troops).rounds = [] ∧
      (exchangeRoll (constRoll 2) rolling15.troops).rounds.count Sides.Attack = 0 ∧
      (exchangeRoll (constRoll 2) rolling15.troops).rounds.count Sides.Defense = 0 ∧
      (exchangeRoll (constRoll 2) rolling15.troops).winner = Sides.Defense ∧
      (exchangeRoll (constRoll 2) rolling15.troops).troopsLost = (⟨0, 0⟩ : SideMap Int)) :=
  ⟨by decide, zero_round_exchange rolling15 (constRoll 2) (by decide)⟩

/-- C10: with non-negative troop counts, each side's die count is at
least the round count, and the dice lists built for an exchange have
exactly the looked-up die counts, so every pair comparison at an index
below the round count stays inside both sorted dice lists. -/
theorem dice_counts_cover_roundCount (g : GameData) (roll : Sides → Nat → Int)
    ( _hA : 0 ≤ g.troops.attack) ( _hD : 0 ≤ g.troops.defense) :
    (nextRoundCount g.troops).toNat ≤ nextDiceCount Sides.Attack g.troops.attack ∧
    (nextRoundCount g.troops).toNat ≤ nextDiceCount Sides.Defense g.troops.defense ∧
    (exchangeRoll roll g.troops).dices.attack.length
      = nextDiceCount Sides.Attack g.troops.attack ∧
    (exchangeRoll roll g.troops).dices.defense.length
      = nextDiceCount Sides.Defense g.troops.defense ∧
    (nextRoundCount g.troops).toNat ≤ (exchangeRoll roll g.troops).dices.attack.length ∧
    (nextRoundCount g.troops).toNat ≤ (exchangeRoll roll g.troops).dices.defense.length := by
  obtain ⟨h1, h2⟩ := roundCount_le_diceCount g.troops
  have l1 : (exchangeRoll roll g.troops).dices.attack.length
      = nextDiceCount Sides.Attack g.troops.attack := by
    rw [exchangeRoll_dices_attack, drawnDices_length]
  have l2 : (exchangeRoll roll g.troops).dices.defense.length
      = nextDiceCount Sides.Defense g.troops.defense := by
    rw [exchangeRoll_dices_defense, drawnDices_length]
  refine ⟨h1, h2, l1, l2, ?_, ?_⟩
  · rw [l1]
    exact h1
  · rw [l2]
    exact h2

/-- Witness for C10 at the 4-vs-4 Rolling state with an all-threes draw. -/
theorem dice_counts_cover_roundCount_witness :
    (0 ≤ rolling44.troops.attack ∧ 0 ≤ rolling44.troops.defense) ∧
    (nextRoundCount rolling44.troops).toNat
        ≤ nextDiceCount Sides.Attack rolling44.troops.attack ∧
    (nextRoundCount rolling44.troops).toNat
        ≤ nextDiceCount Sides.Defense rolling44.troops.defense ∧
    (exchangeRoll (constRoll 3) rolling44.troops).dices.attack.length
        = nextDiceCount Sides.Attack rolling44.troops.attack ∧
    (exchangeRoll (constRoll 3) rolling44.troops).dices.defense.length
        = nextDiceCount Sides.Defense rolling44.troops.defense ∧
    (nextRoundCount rolling44.troops).toNat
        ≤ (exchangeRoll (constRoll 3) rolling44.troops).dices.attack.length ∧
    (nextRoundCount rolling44.troops).toNat
        ≤ (exchangeRoll (constRoll 3) rolling44.troops).dices.defense.length :=
  ⟨⟨by decide, by decide⟩,
    dice_counts_cover_roundCount rolling44 (constRoll 3) (by decide) (by decide)⟩

end WarDice
